import Mathlib

/-
Verification of the `aspen` VB6 project checker (src/check.rs) against its
natural-language specification.

The Rust code is shallowly embedded: the filesystem and the external
`vb6parse` collaborator are modelled as an explicit environment (`Env`) of
pure functions, platform conditionals (`cfg!(target_os = "windows")`) become
an explicit `isWindows : Bool` parameter, and Rust panics (`unwrap` on a
fallible value) are modelled as `Option.none` propagating out of the
function. Side effects on the filesystem that the claims talk about
(stat / read / parse of a referenced file) are recorded in an explicit
event trace.
-/

set_option autoImplicit false

namespace Aspen

/- ### Data model (src/check.rs lines 12-25) -/

/-- Embeds `CheckSettings` (check.rs lines 12-18): the target path and the
four independent category toggles. -/
structure CheckSettings where
  project_path : String
  check_forms : Bool
  check_modules : Bool
  check_classes : Bool
  check_references : Bool
deriving DecidableEq, Repr

/-- Embeds `CheckResults` (check.rs lines 20-25). `anyhow::Error` values are
modelled by their rendered messages. -/
structure CheckResults where
  project_path : String
  parsing_errors : List String
  non_english_files : List String
  missing_files : List String
deriving DecidableEq, Repr

/-- The four reference categories a project descriptor can mention. -/
inductive Category where
  | reference
  | classFile
  | moduleFile
  | formFile
deriving DecidableEq, Repr

/-- Filesystem/parse side effects performed while checking one project;
used to state the frame claims (which files were stat'd, read, parsed). -/
inductive Event where
  | stat (cat : Category) (path : String)
  | readF (cat : Category) (path : String)
  | parseF (cat : Category) (file : String)
deriving DecidableEq, Repr

/-- The category whose processing loop performed an event. -/
def eventCategory : Event → Category
  | .stat c _ => c
  | .readF c _ => c
  | .parseF c _ => c

/-- Embeds `vb6parse::errors::VB6ErrorKind` as far as check.rs inspects it:
the distinguished likely-non-English kind versus everything else. -/
inductive VB6ErrorKind where
  | likelyNonEnglishCharacterSet
  | otherKind (tag : Nat)
deriving DecidableEq, Repr

/-- A parse failure from the `vb6parse` collaborator: its kind plus its
rendered message (what `err.into()` contributes to `parsing_errors`). -/
structure VB6Error where
  kind : VB6ErrorKind
  message : String
deriving DecidableEq, Repr

/-- Embeds `vb6parse::parsers::VB6ProjectReference`: check.rs matches only
the `SubProject { path }` variant and skips everything else. -/
inductive VB6ProjectReference where
  | subProject (path : String)
  | other
deriving DecidableEq, Repr

/-- Embeds the parsed `VB6Project` as far as check.rs consumes it: the
sub-project reference list and the class/module/form path lists. -/
structure VB6Project where
  subproject_references : List VB6ProjectReference
  classes : List String
  modules : List String
  forms : List String
deriving DecidableEq, Repr

/-- The environment standing for the filesystem and the external parser:
`metadataOk p` is `std::fs::metadata(p).is_ok()`, `readFile` is
`std::fs::read`, `parseProject` is `VB6Project::parse`, and `parseFile cat`
is `VB6ClassFile::parse` / `VB6ModuleFile::parse` / `VB6FormFile::parse`
according to `cat`. -/
structure Env where
  metadataOk : String → Bool
  readFile : String → Except String (List Nat)
  parseProject : String → List Nat → Except String VB6Project
  parseFile : Category → String → List Nat → Except VB6Error Unit

/- ### Path helpers

Executable models of the `std::path` operations check.rs uses on
`/`-separated path strings. -/

/-- Splits a character list at a separator character (structural model of
path-component splitting). -/
def splitChars (sep : Char) : List Char → List Char → List (List Char)
  | [], acc => [acc.reverse]
  | c :: cs, acc =>
    if c == sep then acc.reverse :: splitChars sep cs []
    else splitChars sep cs (c :: acc)

/-- The `/`-separated components of a path string. -/
def pathComponents (p : String) : List String :=
  (splitChars '/' p.data []).map fun cs => String.mk cs

/-- Models `Path::file_name().unwrap().to_str().unwrap()`: the final
component of the path. -/
def fileName (p : String) : String :=
  (pathComponents p).getLastD p

/-- Models `Path::parent().unwrap()`: the path with its final component
removed (check.rs line 394, "remove filename from path"). -/
def parentDir (p : String) : String :=
  String.intercalate "/" ((pathComponents p).dropLast)

/-- Models `Path::extension()`: the part of the file name after the last
dot, `none` when the name has no dot or is a bare dotfile. -/
def extension (p : String) : Option String :=
  match (splitChars '.' (fileName p).data []).map (fun cs => String.mk cs) with
  | [] => none
  | [_] => none
  | ["", _] => none
  | parts => some (parts.getLastD "")

/-- The platform's native separator, as a string. -/
def pathSeparator (isWindows : Bool) : String :=
  if isWindows then "\\" else "/"

/-- Whether a path string is absolute on the given platform (leading
separator). -/
def isAbsolutePath (isWindows : Bool) (p : String) : Bool :=
  match p.data with
  | [] => false
  | c :: _ => if isWindows then c == '\\' else c == '/'

/-- Models `PathBuf::join`: an absolute right operand replaces the base,
otherwise the two are joined with the native separator. -/
def pathJoin (isWindows : Bool) (base piece : String) : String :=
  if isAbsolutePath isWindows piece then piece
  else if base = "" then piece
  else base ++ pathSeparator isWindows ++ piece

/-- Models `file_path.replace("\\", "/")` (a single-character pattern, so a
character-wise map). -/
def replaceBackslash (s : String) : String :=
  String.mk (s.data.map fun c => if c == '\\' then '/' else c)

/-- Embeds `join_parent_project_path` (check.rs lines 349-357): on Windows
the reference string is joined unmodified; elsewhere its backslashes are
first replaced by `/`. Purely a path computation: it takes no filesystem
environment and performs no existence check. -/
def join_parent_project_path (isWindows : Bool) (parent_project_path : String)
    (file_path : String) : String :=
  if isWindows then pathJoin isWindows parent_project_path file_path
  else pathJoin isWindows parent_project_path (replaceBackslash file_path)

/- ### C8 -/

theorem replaceBackslash_data (s : String) :
    (replaceBackslash s).data = s.data.map fun c => if c == '\\' then '/' else c := by
  simp [replaceBackslash]

theorem count_backslash_replace (l : List Char) :
    (l.map fun c => if c == '\\' then '/' else c).count '\\' = 0 := by
  induction l with
  | nil => rfl
  | cons c cs ih =>
    by_cases h : c = '\\' <;> simp [List.count_cons, h] <;> simpa using ih

/-- C8: the path joiner is a total function of its two string arguments (it
takes no filesystem environment, hence performs no existence check and has
no failure mode). On the backslash-native platform the reference string is
joined to the base unmodified; on any other platform every backslash in the
reference string is replaced by the native separator `/` before joining, so
the joined reference part contains no backslash. -/
theorem c8_join_parent_project_path_spec (base s : String) :
    join_parent_project_path true base s = pathJoin true base s
    ∧ join_parent_project_path false base s = pathJoin false base (replaceBackslash s)
    ∧ (replaceBackslash s).data = s.data.map (fun c => if c == '\\' then '/' else c)
    ∧ (replaceBackslash s).data.count '\\' = 0 := by
  refine ⟨rfl, rfl, replaceBackslash_data s, ?_⟩
  rw [replaceBackslash_data]
  exact count_backslash_replace s.data

/- ### Summary reporting (check.rs lines 122-338)

Each reporting function is modelled as returning the text it prints
instead of printing it: `report_check` returns the list of detail lines,
and the two summary functions return the single summary line chosen by
their 8-way condition table (`none` when no condition fires, which the
theorems below show is impossible). -/

/-- Embeds `report_check` (check.rs lines 122-149): per-project detail
lines, nothing when all three sequences are empty. -/
def report_check (check_results : CheckResults) : List String :=
  if check_results.parsing_errors.length == 0
      && check_results.non_english_files.length == 0
      && check_results.missing_files.length == 0 then
    []
  else
    ["Errors found in \x27" ++ check_results.project_path ++ "\x27:"]
    ++ (if check_results.missing_files.length != 0 then
          "Missing Files:" :: check_results.missing_files.map (fun s => "  " ++ s)
        else [])
    ++ (if check_results.parsing_errors.length != 0 then
          "Parsing Errors:" :: check_results.parsing_errors.map (fun s => "  " ++ s)
        else [])
    ++ (if check_results.non_english_files.length != 0 then
          "Non-English Files:" :: check_results.non_english_files.map (fun s => "  " ++ s)
        else [])

/-- The eight boolean branch conditions of the summary reporters, in source
order, keyed on (parsing-error count, non-English count, missing count). -/
def summary_conditions (e n m : Nat) : List Bool :=
  [ e == 0 && n == 0 && m == 0
  , e == 0 && n == 0 && m != 0
  , e == 0 && n != 0 && m == 0
  , e == 0 && n != 0 && m != 0
  , e != 0 && n == 0 && m == 0
  , e != 0 && n == 0 && m != 0
  , e != 0 && n != 0 && m == 0
  , e != 0 && n != 0 && m != 0 ]

/-- Embeds `report_single_check_summary` (check.rs lines 151-250): the
single-project 8-way message table. -/
def report_single_check_summary (summary : CheckResults) : Option String :=
  let e := summary.parsing_errors.length
  let n := summary.non_english_files.length
  let m := summary.missing_files.length
  if e == 0 && n == 0 && m == 0 then
    some ("No errors found in " ++ summary.project_path ++ ".")
  else if e == 0 && n == 0 && m != 0 then
    some (toString m ++ " missing files in " ++ summary.project_path ++ ".")
  else if e == 0 && n != 0 && m == 0 then
    some (toString n ++ " unprocessed non-English files found in the project.")
  else if e == 0 && n != 0 && m != 0 then
    some (toString m ++ " missing files, " ++ toString n
      ++ " unprocessed non-English files found in the project.")
  else if e != 0 && n == 0 && m == 0 then
    some (toString e ++ " errors found in the project.")
  else if e != 0 && n == 0 && m != 0 then
    some (toString m ++ " missing files, " ++ toString e ++ " errors found in the project.")
  else if e != 0 && n != 0 && m == 0 then
    some (toString e ++ " errors found in project with " ++ toString n
      ++ " unprocessed non-English files found in the project.")
  else if e != 0 && n != 0 && m != 0 then
    some (toString m ++ " missing files, " ++ toString e ++ " errors found in project with "
      ++ toString n ++ " unprocessed non-English files found in the project.")
  else none

/-- Embeds the `total_error_count` fold of `report_check_summary`
(check.rs lines 260-262). -/
def total_error_count (summary : List CheckResults) : Nat :=
  summary.foldl (fun acc x => acc + x.parsing_errors.length) 0

/-- Embeds the `total_missed_file_count` fold (check.rs line 264). -/
def total_missed_file_count (summary : List CheckResults) : Nat :=
  summary.foldl (fun acc x => acc + x.missing_files.length) 0

/-- Embeds the `total_non_english_file_count` fold (check.rs lines
266-268). -/
def total_non_english_file_count (summary : List CheckResults) : Nat :=
  summary.foldl (fun acc x => acc + x.non_english_files.length) 0

/-- Embeds the `project_count` binding of `report_check_summary`
(check.rs line 258). -/
def project_count (summary : List CheckResults) : Nat :=
  summary.length

/-- Embeds `report_check_summary` (check.rs lines 252-338): a singleton
delegates to the single-project variant, otherwise the 8-way table keyed on
the summed counts. Note the faithful embedding of the source's `0, 0, 1`
branch (lines 277-283), which formats `total_non_english_file_count` in the
missing-files slot. -/
def report_check_summary (summary : List CheckResults) : Option String :=
  match summary with
  | [single] => report_single_check_summary single
  | _ =>
    let pc := project_count summary
    let e := total_error_count summary
    let m := total_missed_file_count summary
    let n := total_non_english_file_count summary
    if e == 0 && n == 0 && m == 0 then
      some ("No errors found in " ++ toString pc ++ " projects.")
    else if e == 0 && n == 0 && m != 0 then
      some (toString n ++ " missing files in " ++ toString pc ++ " projects")
    else if e == 0 && n != 0 && m == 0 then
      some (toString n ++ " unprocessed non-English files found in " ++ toString pc
        ++ " projects")
    else if e == 0 && n != 0 && m != 0 then
      some (toString m ++ " missing files, " ++ toString n
        ++ " unprocessed non-English files found in " ++ toString pc ++ " projects")
    else if e != 0 && n == 0 && m == 0 then
      some (toString e ++ " errors found in " ++ toString pc ++ " projects.")
    else if e != 0 && n == 0 && m != 0 then
      some (toString m ++ " missing files, " ++ toString e ++ " errors found in "
        ++ toString pc ++ " projects.")
    else if e != 0 && n != 0 && m == 0 then
      some (toString e ++ " errors, " ++ toString n
        ++ " unprocessed non-English files found in " ++ toString pc ++ " projects.")
    else if e != 0 && n != 0 && m != 0 then
      some (toString m ++ " missing files, " ++ toString e ++ " errors, " ++ toString n
        ++ " unprocessed non-English files found in " ++ toString pc ++ " projects.")
    else none

/- ### C7 -/

theorem summary_conditions_one_true (e n m : Nat) :
    (summary_conditions e n m).count true = 1 := by
  cases he : e == 0 <;> cases hn : n == 0 <;> cases hm : m == 0 <;>
    simp only [summary_conditions, he, hn, hm, bne, Bool.not_true, Bool.not_false,
      Bool.true_and, Bool.false_and, Bool.and_true, Bool.and_false] <;> rfl

theorem report_single_check_summary_isSome (s : CheckResults) :
    (report_single_check_summary s).isSome = true := by
  unfold report_single_check_summary
  cases he : s.parsing_errors.length == 0 <;>
    cases hn : s.non_english_files.length == 0 <;>
    cases hm : s.missing_files.length == 0 <;>
    simp only [he, hn, hm, bne, Bool.not_true, Bool.not_false, Bool.true_and,
      Bool.false_and, Bool.and_true, Bool.and_false, if_true, if_false] <;> rfl

/-- C7: in both summary reporters the eight branch conditions over the
three count-nonzero booleans are mutually exclusive and collectively
exhaustive — for every count triple exactly one condition in the source's
branch order is true — and consequently each reporter always produces
exactly one message. -/
theorem c7_eight_way_table_exclusive_exhaustive (s : CheckResults) (l : List CheckResults) :
    (summary_conditions s.parsing_errors.length s.non_english_files.length
        s.missing_files.length).count true = 1
    ∧ (summary_conditions (total_error_count l) (total_non_english_file_count l)
        (total_missed_file_count l)).count true = 1
    ∧ (report_single_check_summary s).isSome = true
    ∧ (report_check_summary l).isSome = true := by
  refine ⟨summary_conditions_one_true _ _ _, summary_conditions_one_true _ _ _,
    report_single_check_summary_isSome s, ?_⟩
  unfold report_check_summary
  match l with
  | [single] => exact report_single_check_summary_isSome single
  | [] =>
    cases he : total_error_count [] == 0 <;>
      cases hn : total_non_english_file_count [] == 0 <;>
      cases hm : total_missed_file_count [] == 0 <;>
      simp only [he, hn, hm, bne, Bool.not_true, Bool.not_false, Bool.true_and,
        Bool.false_and, Bool.and_true, Bool.and_false, if_true, if_false] <;> rfl
  | a :: b :: rest =>
    cases he : total_error_count (a :: b :: rest) == 0 <;>
      cases hn : total_non_english_file_count (a :: b :: rest) == 0 <;>
      cases hm : total_missed_file_count (a :: b :: rest) == 0 <;>
      simp only [he, hn, hm, bne, Bool.not_true, Bool.not_false, Bool.true_and,
        Bool.false_and, Bool.and_true, Bool.and_false, if_true, if_false] <;> rfl

/- ### C9 -/

theorem foldl_add_length {α : Type} (f : α → Nat) (l : List α) (n : Nat) :
    l.foldl (fun acc x => acc + f x) n = n + (l.map f).sum := by
  induction l generalizing n with
  | nil => simp
  | cons a t ih => simp [ih, Nat.add_assoc]

/-- C9: each aggregate count used by the multi-project summary equals the
exact sum of the corresponding per-project counts, the reported project
count is the number of results, and all three sums are invariant under any
permutation of the result sequence. -/
theorem c9_aggregate_counts_are_sums (l l2 : List CheckResults) :
    total_error_count l = (l.map fun x => x.parsing_errors.length).sum
    ∧ total_missed_file_count l = (l.map fun x => x.missing_files.length).sum
    ∧ total_non_english_file_count l = (l.map fun x => x.non_english_files.length).sum
    ∧ project_count l = l.length
    ∧ (l.Perm l2 →
        total_error_count l = total_error_count l2
        ∧ total_missed_file_count l = total_missed_file_count l2
        ∧ total_non_english_file_count l = total_non_english_file_count l2) := by
  refine ⟨?_, ?_, ?_, rfl, ?_⟩
  · simpa using foldl_add_length (fun x => x.parsing_errors.length) l 0
  · simpa using foldl_add_length (fun x => x.missing_files.length) l 0
  · simpa using foldl_add_length (fun x => x.non_english_files.length) l 0
  · intro hp
    refine ⟨?_, ?_, ?_⟩ <;>
      simp only [total_error_count, total_missed_file_count, total_non_english_file_count] <;>
      rw [foldl_add_length, foldl_add_length] <;>
      exact congrArg (0 + ·) (List.Perm.sum_eq (List.Perm.map _ hp))

/-- Witness for C9 at a concrete pair of permuted result lists. -/
theorem c9_aggregate_counts_are_sums_witness :
    total_error_count
        [CheckResults.mk "a.vbp" ["e1"] [] ["m1"], CheckResults.mk "b.vbp" [] ["n1"] []]
      = total_error_count
        [CheckResults.mk "b.vbp" [] ["n1"] [], CheckResults.mk "a.vbp" ["e1"] [] ["m1"]] :=
  ((c9_aggregate_counts_are_sums
      [CheckResults.mk "a.vbp" ["e1"] [] ["m1"], CheckResults.mk "b.vbp" [] ["n1"] []]
      [CheckResults.mk "b.vbp" [] ["n1"] [], CheckResults.mk "a.vbp" ["e1"] [] ["m1"]]).2.2.2.2
    (List.Perm.swap _ _ _)).1

/- ### C1 -/

/-- C1 failing input: two projects, the first with exactly one missing
class file, the second clean. -/
def c1_result_missing : CheckResults :=
  { project_path := "proj/one.vbp", parsing_errors := [],
    non_english_files := [], missing_files := ["Class not found: proj/missing.cls"] }

/-- C1 failing input, second project: a clean result. -/
def c1_result_clean : CheckResults :=
  { project_path := "proj/two.vbp", parsing_errors := [],
    non_english_files := [], missing_files := [] }

/-- C1: on a two-project run with one missing file and no parse errors or
encoding anomalies, the summed missing count is 1, yet the missing-only
multi-project template prints `total_non_english_file_count` — the reported
message says "0 missing files in 2 projects", not the total number of
missing files the claim (and the template's own wording) requires. -/
theorem c1_missing_only_summary_reports_wrong_count :
    total_missed_file_count [c1_result_missing, c1_result_clean] = 1
    ∧ total_error_count [c1_result_missing, c1_result_clean] = 0
    ∧ total_non_english_file_count [c1_result_missing, c1_result_clean] = 0
    ∧ report_check_summary [c1_result_missing, c1_result_clean]
        = some "0 missing files in 2 projects" := by
  refine ⟨rfl, rfl, rfl, ?_⟩
  decide

/- ### Single-project checker (check.rs lines 362-530)

Each processing step returns the updated `CheckResults` together with the
filesystem events it performed; `none` models a panic (`unwrap` of a failed
`std::fs::read`). -/

/-- Human-readable name of a file category, as used in the source's
message templates. -/
def catName : Category → String
  | .reference => "Sub-Project Reference"
  | .classFile => "Class"
  | .moduleFile => "Module"
  | .formFile => "Form"

/-- Embeds one iteration of the sub-project reference loop (check.rs lines
399-414): join, stat, and record a missing-file entry on nonexistence; an
existing sub-project is not parsed. Non-`SubProject` variants are
skipped. -/
def processReference (env : Env) (isWindows : Bool) (project_directory : String)
    (check_results : CheckResults) (reference : VB6ProjectReference) :
    CheckResults × List Event :=
  match reference with
  | .subProject path =>
    let reference_path := join_parent_project_path isWindows project_directory path
    if env.metadataOk reference_path = false then
      ({ check_results with
          missing_files := check_results.missing_files
            ++ ["Sub-Project Reference not found: " ++ reference_path] },
        [.stat .reference reference_path])
    else (check_results, [.stat .reference reference_path])
  | .other => (check_results, [])

/-- Embeds one iteration of the class/module/form loops (check.rs lines
418-452, 456-490, 494-526, which are identical up to the category name and
parse collaborator): join, stat; on nonexistence record one missing-file
entry and stop; otherwise read the bytes (an I/O failure panics — the
source unwraps) and parse; a likely-non-English failure records one
non-English entry, any other failure one parsing error, success records
nothing. -/
def processFile (env : Env) (isWindows : Bool) (cat : Category) (project_directory : String)
    (check_results : CheckResults) (reference_path : String) :
    Option (CheckResults × List Event) :=
  let file_path := join_parent_project_path isWindows project_directory reference_path
  if env.metadataOk file_path = false then
    some ({ check_results with
        missing_files := check_results.missing_files
          ++ [catName cat ++ " not found: " ++ file_path] },
      [.stat cat file_path])
  else
    let file_name := fileName file_path
    match env.readFile file_path with
    | .error _ => none
    | .ok contents =>
      match env.parseFile cat file_name contents with
      | .error err =>
        if err.kind = VB6ErrorKind.likelyNonEnglishCharacterSet then
          some ({ check_results with
              non_english_files := check_results.non_english_files
                ++ [catName cat ++ " is likely not in an English character set: " ++ file_name] },
            [.stat cat file_path, .readF cat file_path, .parseF cat file_name])
        else
          some ({ check_results with
              parsing_errors := check_results.parsing_errors ++ [err.message] },
            [.stat cat file_path, .readF cat file_path, .parseF cat file_name])
      | .ok _ =>
        some (check_results,
          [.stat cat file_path, .readF cat file_path, .parseF cat file_name])

/-- Folds a per-reference step over a reference list, threading the result
record and accumulating the event trace; a panic (`none`) aborts the
fold. -/
def foldSteps {α : Type}
    (f : CheckResults → α → Option (CheckResults × List Event)) :
    CheckResults × List Event → List α → Option (CheckResults × List Event)
  | st, [] => some st
  | st, r :: rest =>
    match f st.1 r with
    | none => none
    | some (acc, evs) => foldSteps f (acc, st.2 ++ evs) rest

/-- Embeds the four toggle-guarded category blocks of `check_project`
(check.rs lines 398-527), in source order: sub-project references, classes,
modules, forms. A disabled category's block is skipped entirely. -/
def check_project_references (env : Env) (isWindows : Bool) (cs : CheckSettings)
    (project : VB6Project) (project_directory : String)
    (check_results : CheckResults) : Option (CheckResults × List Event) :=
  match (if cs.check_references then
          foldSteps (fun a r => some (processReference env isWindows project_directory a r))
            (check_results, []) project.subproject_references
        else some (check_results, [])) with
  | none => none
  | some s1 =>
    match (if cs.check_classes then
            foldSteps (processFile env isWindows .classFile project_directory) s1 project.classes
          else some s1) with
    | none => none
    | some s2 =>
      match (if cs.check_modules then
              foldSteps (processFile env isWindows .moduleFile project_directory) s2 project.modules
            else some s2) with
      | none => none
      | some s3 =>
        if cs.check_forms then
          foldSteps (processFile env isWindows .formFile project_directory) s3 project.forms
        else some s3

/-- Embeds `check_project` (check.rs lines 362-530). The descriptor's bytes
are read with `std::fs::read(..).unwrap()`, so an I/O failure there is a
panic (`none`), not a recoverable value; a descriptor parse failure yields
a result whose `parsing_errors` holds exactly that one error; otherwise the
four category blocks run against the descriptor's directory. -/
def check_project (env : Env) (isWindows : Bool) (check_settings : CheckSettings) :
    Option (CheckResults × List Event) :=
  let check_results : CheckResults :=
    { project_path := check_settings.project_path, parsing_errors := [],
      non_english_files := [], missing_files := [] }
  match env.readFile check_settings.project_path with
  | .error _ => none
  | .ok project_contents =>
    let file_name := fileName check_settings.project_path
    match env.parseProject file_name project_contents with
    | .error e => some ({ check_results with parsing_errors := [e] }, [])
    | .ok project =>
      let project_directory := parentDir check_settings.project_path
      check_project_references env isWindows check_settings project project_directory
        check_results

/- ### Per-category contribution deltas

Every step of the checker only appends to the three sequences, and what it
appends is independent of the accumulated record, so each category block's
contribution can be computed on its own. This decomposition underlies the
frame claims. -/

/-- The contribution of one step or one block: entries appended to each of
the three sequences plus the events performed. -/
structure Delta where
  parsing_errors : List String
  non_english_files : List String
  missing_files : List String
  events : List Event
deriving DecidableEq, Repr

/-- The contribution of a skipped block: nothing appended, nothing
stat'd, read or parsed. -/
def Delta.empty : Delta := ⟨[], [], [], []⟩

/-- Concatenation of two contributions. -/
def Delta.append (d1 d2 : Delta) : Delta :=
  ⟨d1.parsing_errors ++ d2.parsing_errors,
   d1.non_english_files ++ d2.non_english_files,
   d1.missing_files ++ d2.missing_files,
   d1.events ++ d2.events⟩

/-- Applies a contribution to an accumulated state. -/
def applyDelta (st : CheckResults × List Event) (d : Delta) : CheckResults × List Event :=
  ({ st.1 with
      parsing_errors := st.1.parsing_errors ++ d.parsing_errors,
      non_english_files := st.1.non_english_files ++ d.non_english_files,
      missing_files := st.1.missing_files ++ d.missing_files },
    st.2 ++ d.events)

/-- The contribution of one sub-project reference iteration. -/
def processReferenceDelta (env : Env) (isWindows : Bool) (project_directory : String)
    (reference : VB6ProjectReference) : Delta :=
  match reference with
  | .subProject path =>
    let reference_path := join_parent_project_path isWindows project_directory path
    if env.metadataOk reference_path = false then
      ⟨[], [], ["Sub-Project Reference not found: " ++ reference_path],
        [.stat .reference reference_path]⟩
    else ⟨[], [], [], [.stat .reference reference_path]⟩
  | .other => Delta.empty

/-- The contribution of one class/module/form iteration (`none` when the
iteration panics on an unreadable existing file). -/
def processFileDelta (env : Env) (isWindows : Bool) (cat : Category)
    (project_directory : String) (reference_path : String) : Option Delta :=
  if env.metadataOk (join_parent_project_path isWindows project_directory reference_path)
      = false then
    some ⟨[], [],
      [catName cat ++ " not found: "
        ++ join_parent_project_path isWindows project_directory reference_path],
      [.stat cat (join_parent_project_path isWindows project_directory reference_path)]⟩
  else
    match env.readFile (join_parent_project_path isWindows project_directory reference_path) with
    | .error _ => none
    | .ok contents =>
      match env.parseFile cat
          (fileName (join_parent_project_path isWindows project_directory reference_path))
          contents with
      | .error err =>
        if err.kind = VB6ErrorKind.likelyNonEnglishCharacterSet then
          some ⟨[],
            [catName cat ++ " is likely not in an English character set: "
              ++ fileName (join_parent_project_path isWindows project_directory reference_path)],
            [],
            [.stat cat (join_parent_project_path isWindows project_directory reference_path),
             .readF cat (join_parent_project_path isWindows project_directory reference_path),
             .parseF cat
               (fileName (join_parent_project_path isWindows project_directory reference_path))]⟩
        else
          some ⟨[err.message], [], [],
            [.stat cat (join_parent_project_path isWindows project_directory reference_path),
             .readF cat (join_parent_project_path isWindows project_directory reference_path),
             .parseF cat
               (fileName (join_parent_project_path isWindows project_directory reference_path))]⟩
      | .ok _ =>
        some ⟨[], [], [],
          [.stat cat (join_parent_project_path isWindows project_directory reference_path),
           .readF cat (join_parent_project_path isWindows project_directory reference_path),
           .parseF cat
             (fileName (join_parent_project_path isWindows project_directory reference_path))]⟩

/-- Folds per-reference contributions over a reference list. -/
def foldDeltas {α : Type} (g : α → Option Delta) : List α → Option Delta
  | [] => some Delta.empty
  | r :: rest =>
    match g r with
    | none => none
    | some d =>
      match foldDeltas g rest with
      | none => none
      | some ds => some (d.append ds)

theorem Delta.append_empty (d : Delta) : d.append Delta.empty = d := by
  obtain ⟨pe, ne, mf, evs⟩ := d
  simp [Delta.append, Delta.empty]

theorem applyDelta_empty (st : CheckResults × List Event) :
    applyDelta st Delta.empty = st := by
  obtain ⟨r, evs⟩ := st
  obtain ⟨p, pe, ne, mf⟩ := r
  simp [applyDelta, Delta.empty]

theorem applyDelta_append (st : CheckResults × List Event) (d1 d2 : Delta) :
    applyDelta (applyDelta st d1) d2 = applyDelta st (d1.append d2) := by
  simp [applyDelta, Delta.append]

theorem processReference_delta (env : Env) (iw : Bool) (dir : String)
    (acc : CheckResults) (r : VB6ProjectReference) :
    processReference env iw dir acc r
      = applyDelta (acc, []) (processReferenceDelta env iw dir r) := by
  match r with
  | .other => simp [processReference, processReferenceDelta, applyDelta_empty]
  | .subProject path =>
    by_cases hm : env.metadataOk (join_parent_project_path iw dir path) = false <;>
      simp [processReference, processReferenceDelta, applyDelta, hm]

theorem processFile_delta (env : Env) (iw : Bool) (cat : Category) (dir : String)
    (acc : CheckResults) (ref : String) :
    processFile env iw cat dir acc ref
      = (processFileDelta env iw cat dir ref).map (applyDelta (acc, [])) := by
  unfold processFile processFileDelta
  by_cases hm : env.metadataOk (join_parent_project_path iw dir ref) = false
  · simp [hm, applyDelta]
  · simp only [hm, if_false]
    match hr : env.readFile (join_parent_project_path iw dir ref) with
    | .error e => simp
    | .ok contents =>
      match hp : env.parseFile cat (fileName (join_parent_project_path iw dir ref)) contents with
      | .error err =>
        by_cases hk : err.kind = VB6ErrorKind.likelyNonEnglishCharacterSet <;>
          simp [hp, hk, applyDelta]
      | .ok u => simp [hp, applyDelta]

theorem foldSteps_deltas {α : Type}
    (f : CheckResults → α → Option (CheckResults × List Event)) (g : α → Option Delta)
    (hf : ∀ a r, f a r = (g r).map (applyDelta (a, [])))
    (refs : List α) (st : CheckResults × List Event) :
    foldSteps f st refs = (foldDeltas g refs).map (applyDelta st) := by
  induction refs generalizing st with
  | nil => simp [foldSteps, foldDeltas, applyDelta_empty]
  | cons r rest ih =>
    show (match f st.1 r with
          | none => none
          | some (acc, evs) => foldSteps f (acc, st.2 ++ evs) rest)
        = (foldDeltas g (r :: rest)).map (applyDelta st)
    rw [hf st.1 r]
    match hg : g r with
    | none => simp [foldDeltas, hg]
    | some d =>
      simp only [Option.map_some']
      show foldSteps f ((applyDelta (st.1, []) d).1, st.2 ++ (applyDelta (st.1, []) d).2) rest
          = (foldDeltas g (r :: rest)).map (applyDelta st)
      have happ : ((applyDelta (st.1, []) d).1, st.2 ++ (applyDelta (st.1, []) d).2)
          = applyDelta st d := by
        simp [applyDelta]
      rw [happ, ih (applyDelta st d)]
      match hrest : foldDeltas g rest with
      | none => simp [foldDeltas, hg, hrest]
      | some ds => simp [foldDeltas, hg, hrest, applyDelta_append]

/-- The contribution of one toggle-guarded category block of
`check_project` (check.rs lines 398-527): empty when the category's toggle
is off, otherwise the folded per-reference contributions of that
category's list. -/
def categoryDelta (env : Env) (isWindows : Bool) (cs : CheckSettings)
    (project : VB6Project) (project_directory : String) : Category → Option Delta
  | .reference =>
    if cs.check_references then
      foldDeltas (fun r => some (processReferenceDelta env isWindows project_directory r))
        project.subproject_references
    else some Delta.empty
  | .classFile =>
    if cs.check_classes then
      foldDeltas (processFileDelta env isWindows .classFile project_directory) project.classes
    else some Delta.empty
  | .moduleFile =>
    if cs.check_modules then
      foldDeltas (processFileDelta env isWindows .moduleFile project_directory) project.modules
    else some Delta.empty
  | .formFile =>
    if cs.check_forms then
      foldDeltas (processFileDelta env isWindows .formFile project_directory) project.forms
    else some Delta.empty

/-- The four category blocks factor into four independent contributions
applied in source order: the result record only ever receives the
concatenation of per-category deltas, each computed without reference to
the accumulated state. -/
theorem check_project_references_decomposition (env : Env) (iw : Bool)
    (cs : CheckSettings) (project : VB6Project) (dir : String) (acc : CheckResults) :
    check_project_references env iw cs project dir acc =
      match categoryDelta env iw cs project dir .reference,
            categoryDelta env iw cs project dir .classFile,
            categoryDelta env iw cs project dir .moduleFile,
            categoryDelta env iw cs project dir .formFile with
      | some d1, some d2, some d3, some d4 =>
        some (applyDelta (acc, []) (((d1.append d2).append d3).append d4))
      | _, _, _, _ => none := by
  have h1 : (if cs.check_references then
        foldSteps (fun a r => some (processReference env iw dir a r))
          (acc, ([] : List Event)) project.subproject_references
      else some (acc, ([] : List Event)))
      = (categoryDelta env iw cs project dir .reference).map (applyDelta (acc, [])) := by
    by_cases h : cs.check_references
    · simp only [h, if_true, categoryDelta]
      exact foldSteps_deltas _ _
        (fun a r => by rw [processReference_delta env iw dir a r]; rfl) _ _
    · simp [h, categoryDelta, applyDelta_empty, Delta.append_empty]
  have hstep : ∀ (cat : Category) (refs : List String) (st : CheckResults × List Event),
      foldSteps (processFile env iw cat dir) st refs
        = (foldDeltas (processFileDelta env iw cat dir) refs).map (applyDelta st) :=
    fun cat refs st => foldSteps_deltas _ _ (fun a r => processFile_delta env iw cat dir a r) refs st
  unfold check_project_references
  rw [h1]
  match hd1 : categoryDelta env iw cs project dir .reference with
  | none => rfl
  | some d1 =>
    simp only [Option.map_some']
    have h2 : (if cs.check_classes then
          foldSteps (processFile env iw .classFile dir) (applyDelta (acc, []) d1) project.classes
        else some (applyDelta (acc, []) d1))
        = (categoryDelta env iw cs project dir .classFile).map
            (fun d => applyDelta (acc, []) (d1.append d)) := by
      by_cases h : cs.check_classes
      · simp only [h, if_true, categoryDelta, hstep]
        match foldDeltas (processFileDelta env iw .classFile dir) project.classes with
        | none => rfl
        | some d => simp [applyDelta_append]
      · simp [h, categoryDelta, applyDelta_empty, Delta.append_empty]
    rw [h2]
    match hd2 : categoryDelta env iw cs project dir .classFile with
    | none => rfl
    | some d2 =>
      simp only [Option.map_some']
      have h3 : (if cs.check_modules then
            foldSteps (processFile env iw .moduleFile dir)
              (applyDelta (acc, []) (d1.append d2)) project.modules
          else some (applyDelta (acc, []) (d1.append d2)))
          = (categoryDelta env iw cs project dir .moduleFile).map
              (fun d => applyDelta (acc, []) ((d1.append d2).append d)) := by
        by_cases h : cs.check_modules
        · simp only [h, if_true, categoryDelta, hstep]
          match foldDeltas (processFileDelta env iw .moduleFile dir) project.modules with
          | none => rfl
          | some d => simp [applyDelta_append]
        · simp [h, categoryDelta, applyDelta_empty, Delta.append_empty]
      rw [h3]
      match hd3 : categoryDelta env iw cs project dir .moduleFile with
      | none => rfl
      | some d3 =>
        simp only [Option.map_some']
        have h4 : (if cs.check_forms then
              foldSteps (processFile env iw .formFile dir)
                (applyDelta (acc, []) ((d1.append d2).append d3)) project.forms
            else some (applyDelta (acc, []) ((d1.append d2).append d3)))
            = (categoryDelta env iw cs project dir .formFile).map
                (fun d => applyDelta (acc, []) (((d1.append d2).append d3).append d)) := by
          by_cases h : cs.check_forms
          · simp only [h, if_true, categoryDelta, hstep]
            match foldDeltas (processFileDelta env iw .formFile dir) project.forms with
            | none => rfl
            | some d => simp [applyDelta_append]
          · simp [h, categoryDelta, applyDelta_empty, Delta.append_empty]
        rw [h4]
        match hd4 : categoryDelta env iw cs project dir .formFile with
        | none => rfl
        | some d4 => rfl

/- ### Event tagging: each block only touches files of its own category -/

theorem processFileDelta_events (env : Env) (iw : Bool) (cat : Category) (dir : String)
    (ref : String) (d : Delta) (h : processFileDelta env iw cat dir ref = some d) :
    ∀ ev ∈ d.events, eventCategory ev = cat := by
  intro ev hev
  unfold processFileDelta at h
  split at h
  · injection h with h; subst h
    simp at hev; subst hev; rfl
  · split at h
    · exact absurd h (by simp)
    · split at h
      · split at h
        · injection h with h; subst h
          simp at hev; rcases hev with h1 | h1 | h1 <;> subst h1 <;> rfl
        · injection h with h; subst h
          simp at hev; rcases hev with h1 | h1 | h1 <;> subst h1 <;> rfl
      · injection h with h; subst h
        simp at hev; rcases hev with h1 | h1 | h1 <;> subst h1 <;> rfl

theorem processReferenceDelta_events (env : Env) (iw : Bool) (dir : String)
    (r : VB6ProjectReference) :
    ∀ ev ∈ (processReferenceDelta env iw dir r).events,
      eventCategory ev = Category.reference := by
  intro ev hev
  match r with
  | .other => simp [processReferenceDelta, Delta.empty] at hev
  | .subProject path =>
    by_cases hm : env.metadataOk (join_parent_project_path iw dir path) = false <;>
      simp [processReferenceDelta, hm] at hev <;> subst hev <;> rfl

theorem foldDeltas_events {α : Type} (g : α → Option Delta) (c : Category)
    (hg : ∀ r d, g r = some d → ∀ ev ∈ d.events, eventCategory ev = c) :
    ∀ (l : List α) (d : Delta), foldDeltas g l = some d →
      ∀ ev ∈ d.events, eventCategory ev = c := by
  intro l
  induction l with
  | nil =>
    intro d h ev hev
    unfold foldDeltas at h
    injection h with h
    subst h
    simp [Delta.empty] at hev
  | cons r rest ih =>
    intro d h ev hev
    unfold foldDeltas at h
    match hgr : g r with
    | none => rw [hgr] at h; exact absurd h (by simp)
    | some d1 =>
      rw [hgr] at h
      match hrest : foldDeltas g rest with
      | none => rw [hrest] at h; exact absurd h (by simp)
      | some ds =>
        rw [hrest] at h
        injection h with h
        subst h
        simp only [Delta.append, List.mem_append] at hev
        rcases hev with h1 | h1
        · exact hg r d1 hgr ev h1
        · exact ih ds hrest ev h1

theorem categoryDelta_events (env : Env) (iw : Bool) (cs : CheckSettings)
    (project : VB6Project) (dir : String) (c : Category) (d : Delta)
    (h : categoryDelta env iw cs project dir c = some d) :
    ∀ ev ∈ d.events, eventCategory ev = c := by
  match c with
  | .reference =>
    unfold categoryDelta at h
    by_cases ht : cs.check_references
    · rw [if_pos ht] at h
      refine foldDeltas_events _ _ ?_ _ d h
      intro r d2 hr ev hev
      injection hr with hr
      subst hr
      exact processReferenceDelta_events env iw dir r ev hev
    · rw [if_neg ht] at h; injection h with h; subst h
      intro ev hev; simp [Delta.empty] at hev
  | .classFile =>
    unfold categoryDelta at h
    by_cases ht : cs.check_classes
    · rw [if_pos ht] at h
      exact foldDeltas_events _ _ (processFileDelta_events env iw .classFile dir) _ d h
    · rw [if_neg ht] at h; injection h with h; subst h
      intro ev hev; simp [Delta.empty] at hev
  | .moduleFile =>
    unfold categoryDelta at h
    by_cases ht : cs.check_modules
    · rw [if_pos ht] at h
      exact foldDeltas_events _ _ (processFileDelta_events env iw .moduleFile dir) _ d h
    · rw [if_neg ht] at h; injection h with h; subst h
      intro ev hev; simp [Delta.empty] at hev
  | .formFile =>
    unfold categoryDelta at h
    by_cases ht : cs.check_forms
    · rw [if_pos ht] at h
      exact foldDeltas_events _ _ (processFileDelta_events env iw .formFile dir) _ d h
    · rw [if_neg ht] at h; injection h with h; subst h
      intro ev hev; simp [Delta.empty] at hev

/-- Every event of a full run of the category blocks belongs to the delta
of the category that performed it. -/
theorem check_project_references_events (env : Env) (iw : Bool) (cs : CheckSettings)
    (project : VB6Project) (dir : String) (acc : CheckResults)
    (res : CheckResults) (evs : List Event)
    (h : check_project_references env iw cs project dir acc = some (res, evs)) :
    ∀ ev ∈ evs, ∃ d2, categoryDelta env iw cs project dir (eventCategory ev) = some d2
      ∧ ev ∈ d2.events := by
  intro ev hev
  rw [check_project_references_decomposition] at h
  match hd1 : categoryDelta env iw cs project dir .reference,
        hd2 : categoryDelta env iw cs project dir .classFile,
        hd3 : categoryDelta env iw cs project dir .moduleFile,
        hd4 : categoryDelta env iw cs project dir .formFile with
  | some d1, some d2, some d3, some d4 =>
    rw [hd1, hd2, hd3, hd4] at h
    injection h with h
    have hevs : evs = ((((d1.append d2).append d3).append d4).events) := by
      have := congrArg Prod.snd h
      simpa [applyDelta] using this.symm
    rw [hevs] at hev
    simp only [Delta.append, List.mem_append] at hev
    rcases hev with ((h1 | h1) | h1) | h1
    · have := categoryDelta_events env iw cs project dir .reference d1 hd1 ev h1
      exact ⟨d1, by rw [this, hd1], h1⟩
    · have := categoryDelta_events env iw cs project dir .classFile d2 hd2 ev h1
      exact ⟨d2, by rw [this, hd2], h1⟩
    · have := categoryDelta_events env iw cs project dir .moduleFile d3 hd3 ev h1
      exact ⟨d3, by rw [this, hd3], h1⟩
    · have := categoryDelta_events env iw cs project dir .formFile d4 hd4 ev h1
      exact ⟨d4, by rw [this, hd4], h1⟩
  | none, _, _, _ => rw [hd1] at h; exact absurd h (by simp)
  | some d1, none, _, _ => rw [hd1, hd2] at h; exact absurd h (by simp)
  | some d1, some d2, none, _ => rw [hd1, hd2, hd3] at h; exact absurd h (by simp)
  | some d1, some d2, some d3, none => rw [hd1, hd2, hd3, hd4] at h; exact absurd h (by simp)

/- ### C6 -/

/-- The toggle of `CheckSettings` guarding a category. -/
def getToggle (cs : CheckSettings) : Category → Bool
  | .reference => cs.check_references
  | .classFile => cs.check_classes
  | .moduleFile => cs.check_modules
  | .formFile => cs.check_forms

/-- `CheckSettings` with one category's toggle replaced. -/
def setToggle (cs : CheckSettings) : Category → Bool → CheckSettings
  | .reference, b => { cs with check_references := b }
  | .classFile, b => { cs with check_classes := b }
  | .moduleFile, b => { cs with check_modules := b }
  | .formFile, b => { cs with check_forms := b }

/-- C6: when a category's toggle is off, that category contributes nothing
at all — its block's delta is empty (no entries appended, no reference
resolved, stat'd, read or parsed) and no event of that category occurs
anywhere in the run's trace; moreover flipping that one toggle to either
value leaves every other category's contribution unchanged (the
decomposition `check_project_references_decomposition` ties those
contributions to the run's result record). -/
theorem c6_disabled_category_skipped_others_unaffected (env : Env) (iw : Bool)
    (cs : CheckSettings) (project : VB6Project) (dir : String) (acc : CheckResults)
    (c : Category) (h : getToggle cs c = false) :
    categoryDelta env iw cs project dir c = some Delta.empty
    ∧ (∀ res evs, check_project_references env iw cs project dir acc = some (res, evs) →
        ∀ ev ∈ evs, eventCategory ev ≠ c)
    ∧ (∀ (b : Bool) (c2 : Category), c2 ≠ c →
        categoryDelta env iw (setToggle cs c b) project dir c2
          = categoryDelta env iw cs project dir c2) := by
  have hempty : categoryDelta env iw cs project dir c = some Delta.empty := by
    cases c <;> simp_all [categoryDelta, getToggle]
  refine ⟨hempty, ?_, ?_⟩
  · intro res evs hrun ev hev hc
    obtain ⟨d2, hd2, hevd⟩ :=
      check_project_references_events env iw cs project dir acc res evs hrun ev hev
    rw [hc, hempty] at hd2
    injection hd2 with hd2
    rw [hd2.symm] at hevd
    simp [Delta.empty] at hevd
  · intro b c2 hne
    cases c <;> cases c2 <;> simp_all [categoryDelta, setToggle]

/-- Settings with the forms category disabled, for the C6 witness. -/
def c6_settings : CheckSettings :=
  { project_path := "proj/a.vbp", check_forms := false, check_modules := true,
    check_classes := true, check_references := true }

/-- A parsed project with one class and one form, for the C6 witness. -/
def c6_project : VB6Project :=
  { subproject_references := [], classes := ["A.cls"], modules := [], forms := ["F.frm"] }

/-- An environment in which every referenced file is missing, for the C6
witness. -/
def c6_env : Env :=
  { metadataOk := fun _ => false
  , readFile := fun _ => Except.error "io"
  , parseProject := fun _ _ => Except.ok c6_project
  , parseFile := fun _ _ _ => Except.ok () }

/-- An empty accumulated record for the C6 witness. -/
def c6_acc : CheckResults :=
  { project_path := "proj/a.vbp", parsing_errors := [],
    non_english_files := [], missing_files := [] }

/-- Witness for C6: with forms disabled the form block contributes the
empty delta, and re-enabling forms leaves the class block's contribution
unchanged. -/
theorem c6_disabled_category_skipped_others_unaffected_witness :
    categoryDelta c6_env false c6_settings c6_project "proj" Category.formFile
      = some Delta.empty
    ∧ categoryDelta c6_env false (setToggle c6_settings Category.formFile true)
        c6_project "proj" Category.classFile
      = categoryDelta c6_env false c6_settings c6_project "proj" Category.classFile :=
  ⟨(c6_disabled_category_skipped_others_unaffected c6_env false c6_settings c6_project
      "proj" c6_acc Category.formFile rfl).1,
   (c6_disabled_category_skipped_others_unaffected c6_env false c6_settings c6_project
      "proj" c6_acc Category.formFile rfl).2.2 true Category.classFile (by decide)⟩

/- ### C5 -/

/-- C5: each resolved class/module/form reference contributes to at most
one of the three categories, and the classification is decided exactly as
the claim states: a nonexistent target appends exactly one `missing_files`
entry, performs only the stat (no read, no parse), and leaves the other two
sequences untouched; an existing target whose parse fails with the
likely-non-English kind appends exactly one `non_english_files` entry; any
other parse failure appends exactly one `parsing_errors` entry (never
both); a successful parse appends nothing. -/
theorem c5_reference_classification_trichotomy (env : Env) (iw : Bool) (cat : Category)
    (dir : String) (acc : CheckResults) (ref : String) :
    (env.metadataOk (join_parent_project_path iw dir ref) = false →
      processFile env iw cat dir acc ref =
        some ({ acc with missing_files := acc.missing_files
            ++ [catName cat ++ " not found: " ++ join_parent_project_path iw dir ref] },
          [.stat cat (join_parent_project_path iw dir ref)]))
    ∧ (∀ bs err, env.metadataOk (join_parent_project_path iw dir ref) = true →
        env.readFile (join_parent_project_path iw dir ref) = Except.ok bs →
        env.parseFile cat (fileName (join_parent_project_path iw dir ref)) bs
          = Except.error err →
        err.kind = VB6ErrorKind.likelyNonEnglishCharacterSet →
        processFile env iw cat dir acc ref =
          some ({ acc with non_english_files := acc.non_english_files
              ++ [catName cat ++ " is likely not in an English character set: "
                  ++ fileName (join_parent_project_path iw dir ref)] },
            [.stat cat (join_parent_project_path iw dir ref),
             .readF cat (join_parent_project_path iw dir ref),
             .parseF cat (fileName (join_parent_project_path iw dir ref))]))
    ∧ (∀ bs err, env.metadataOk (join_parent_project_path iw dir ref) = true →
        env.readFile (join_parent_project_path iw dir ref) = Except.ok bs →
        env.parseFile cat (fileName (join_parent_project_path iw dir ref)) bs
          = Except.error err →
        err.kind ≠ VB6ErrorKind.likelyNonEnglishCharacterSet →
        processFile env iw cat dir acc ref =
          some ({ acc with parsing_errors := acc.parsing_errors ++ [err.message] },
            [.stat cat (join_parent_project_path iw dir ref),
             .readF cat (join_parent_project_path iw dir ref),
             .parseF cat (fileName (join_parent_project_path iw dir ref))]))
    ∧ (∀ bs, env.metadataOk (join_parent_project_path iw dir ref) = true →
        env.readFile (join_parent_project_path iw dir ref) = Except.ok bs →
        env.parseFile cat (fileName (join_parent_project_path iw dir ref)) bs
          = Except.ok () →
        processFile env iw cat dir acc ref =
          some (acc,
            [.stat cat (join_parent_project_path iw dir ref),
             .readF cat (join_parent_project_path iw dir ref),
             .parseF cat (fileName (join_parent_project_path iw dir ref))])) := by
  refine ⟨?_, ?_, ?_, ?_⟩
  · intro hm
    simp [processFile, hm]
  · intro bs err hm hr hp hk
    simp [processFile, hm, hr, hp, hk]
  · intro bs err hm hr hp hk
    simp [processFile, hm, hr, hp, hk]
  · intro bs hm hr hp
    simp [processFile, hm, hr, hp]

/-- Environment for the C5 witness: every stat fails. -/
def c5_env : Env :=
  { metadataOk := fun _ => false
  , readFile := fun _ => Except.error "io"
  , parseProject := fun _ _ => Except.error "unused"
  , parseFile := fun _ _ _ => Except.ok () }

/-- An empty accumulated result for the C5 witness. -/
def c5_acc : CheckResults :=
  { project_path := "proj/one.vbp", parsing_errors := [],
    non_english_files := [], missing_files := [] }

/-- Witness for C5: a class reference whose target is missing yields
exactly one missing-file entry, no read and no parse. -/
theorem c5_reference_classification_trichotomy_witness :
    processFile c5_env false Category.classFile "proj" c5_acc "A.cls" =
      some ({ c5_acc with missing_files := c5_acc.missing_files
          ++ [catName Category.classFile ++ " not found: "
              ++ join_parent_project_path false "proj" "A.cls"] },
        [.stat Category.classFile (join_parent_project_path false "proj" "A.cls")]) :=
  (c5_reference_classification_trichotomy c5_env false Category.classFile "proj"
    c5_acc "A.cls").1 rfl

/- ### C2 -/

/-- A descriptor with one class reference, for the C2 failing input. -/
def c2_project : VB6Project :=
  { subproject_references := [], classes := ["A.cls"], modules := [], forms := [] }

/-- Environment in which reading the project descriptor itself fails. -/
def c2_env_descriptor : Env :=
  { metadataOk := fun _ => true
  , readFile := fun _ => Except.error "io error"
  , parseProject := fun _ _ => Except.ok c2_project
  , parseFile := fun _ _ _ => Except.ok () }

/-- Environment in which the descriptor reads and parses but reading the
existing class file fails. -/
def c2_env_class : Env :=
  { metadataOk := fun _ => true
  , readFile := fun p => if p == "proj/a.vbp" then Except.ok [] else Except.error "io error"
  , parseProject := fun _ _ => Except.ok c2_project
  , parseFile := fun _ _ _ => Except.ok () }

/-- Settings checking `proj/a.vbp` with all four categories enabled. -/
def c2_settings : CheckSettings :=
  { project_path := "proj/a.vbp", check_forms := true, check_modules := true,
    check_classes := true, check_references := true }

/-- C2 (refuting the claim as stated): both filesystem reads of
`check_project` unwrap. When reading the descriptor's bytes fails the
checker panics (`none`) instead of returning a `CheckResults` with one
generic `parsing_errors` entry, and when reading an existing class file
fails the checker panics as well instead of producing any recoverable
value scoped to that reference. -/
theorem c2_read_failure_panics_run :
    check_project c2_env_descriptor false c2_settings = none
    ∧ check_project c2_env_class false c2_settings = none := by
  constructor <;> rfl

/- ### Discovery and orchestration (check.rs lines 27-120, 340-347) -/

/-- One `walkdir` traversal outcome: a directory entry's path, or a
per-entry traversal error (permission denied, broken symlink, ...). -/
inductive DirEntryResult where
  | ok (path : String)
  | err (message : String)
deriving DecidableEq, Repr

/-- Embeds `is_project_file` (check.rs lines 340-347): error entries are
rejected, otherwise the extension must be exactly `vbp`. -/
def is_project_file (entry : DirEntryResult) : Bool :=
  match entry with
  | .err _ => false
  | .ok path => extension path == some "vbp"

/-- Embeds the closure mapped over the discovered entries (check.rs lines
51-94): an error entry would unwrap the entry's path and panic (`none`);
an ok entry is checked with a per-task clone of the settings carrying that
entry's path. (`check_project` itself never returns `Err`, so the `Err`
match arm of the closure is dead code.) -/
def checkOne (env : Env) (isWindows : Bool) (cs : CheckSettings) :
    DirEntryResult → Option CheckResults
  | .err _ => none
  | .ok path =>
    match check_project env isWindows { cs with project_path := path } with
    | none => none
    | some (r, _) => some r

/-- Sequential in-order effectful map over `Option`: the reference
semantics of collecting the per-project results in discovery order. -/
def mapMOpt {α β : Type} (f : α → Option β) : List α → Option (List β)
  | [] => some []
  | a :: l =>
    match f a with
    | none => none
    | some b =>
      match mapMOpt f l with
      | none => none
      | some bs => some (b :: bs)

/-- The path of a successfully traversed entry. -/
def okPath : DirEntryResult → Option String
  | .ok p => some p
  | .err _ => none

/-- The facts about the target path and the traversal that
`check_subcommand` consults: whether the target exists, whether it is a
directory, and the `WalkDir` entry sequence in traversal order. -/
structure SubEnv where
  pathExists : Bool
  isDir : Bool
  walk : List DirEntryResult
  fsEnv : Env
  isWindows : Bool

/-- What one invocation of the subcommand produces: the text printed, the
collected `check_summary`, and the paths on which the single-project
checker was invoked. -/
structure SubOutcome where
  printed : List String
  summary : List CheckResults
  checkerCalls : List String
deriving DecidableEq, Repr

/-- Embeds `check_subcommand` (check.rs lines 27-120). A nonexistent
target prints one message and returns success immediately; a directory
target filters the walk through `is_project_file` and maps the per-project
closure over the survivors (the parallel `collect_into_vec` is
order-preserving, see `c4_parallel_map_equals_sequential_map`); a file
target checks that one project. `none` models a panicked run. -/
def check_subcommand (E : SubEnv) (cs : CheckSettings) : Option SubOutcome :=
  if E.pathExists = false then
    some { printed := ["No project file found at \x27\x22" ++ cs.project_path ++ "\x22\x27"],
           summary := [], checkerCalls := [] }
  else if E.isDir then
    match mapMOpt (checkOne E.fsEnv E.isWindows cs) (E.walk.filter is_project_file) with
    | none => none
    | some check_summary =>
      some { printed := ["Searching \x27" ++ cs.project_path ++ "\x27 for .vbp project files."]
               ++ (check_summary.map report_check).flatten
               ++ (report_check_summary check_summary).toList,
             summary := check_summary,
             checkerCalls := (E.walk.filter is_project_file).filterMap okPath }
  else
    match check_project E.fsEnv E.isWindows cs with
    | none => none
    | some (r, _) =>
      some { printed := report_check r ++ (report_check_summary [r]).toList,
             summary := [r], checkerCalls := [cs.project_path] }

/- ### C10 -/

/-- C10: when the target path does not exist the subcommand prints exactly
the "No project file found" message and succeeds, with no discovery
consulted, no checker invocation and no `CheckResults` produced. -/
theorem c10_nonexistent_target_short_circuits (E : SubEnv) (cs : CheckSettings)
    (h : E.pathExists = false) :
    check_subcommand E cs =
      some { printed := ["No project file found at \x27\x22" ++ cs.project_path ++ "\x22\x27"],
             summary := [], checkerCalls := [] } := by
  simp [check_subcommand, h]

/-- A `SubEnv` whose target path does not exist (its walk would find a
project, showing discovery is never consulted). -/
def c10_env : SubEnv :=
  { pathExists := false, isDir := true,
    walk := [DirEntryResult.ok "root/a.vbp"],
    fsEnv := c2_env_descriptor, isWindows := false }

/-- Settings targeting the nonexistent path `root`. -/
def c10_settings : CheckSettings :=
  { project_path := "root", check_forms := true, check_modules := true,
    check_classes := true, check_references := true }

/-- Witness for C10 at a concrete nonexistent target. -/
theorem c10_nonexistent_target_short_circuits_witness :
    check_subcommand c10_env c10_settings =
      some { printed := ["No project file found at \x27\x22"
               ++ c10_settings.project_path ++ "\x22\x27"],
             summary := [], checkerCalls := [] } :=
  c10_nonexistent_target_short_circuits c10_env c10_settings rfl

/- ### C3 -/

/-- A `SubEnv` whose walk yields exactly one traversal error. -/
def c3_env : SubEnv :=
  { pathExists := true, isDir := true,
    walk := [DirEntryResult.err "permission denied"],
    fsEnv := c2_env_descriptor, isWindows := false }

/-- Settings targeting the directory `root`. -/
def c3_settings : CheckSettings :=
  { project_path := "root", check_forms := true, check_modules := true,
    check_classes := true, check_references := true }

/-- C3 (refuting the claim as stated): `is_project_file` returns `false`
for a traversal-error entry, so the discovery filter drops failed entries
instead of retaining them — on a walk consisting of one permission-denied
entry the final collection is empty and no `CheckResults` with a "failed
to load" message ever surfaces (the closure's error branch, which would
build one, is unreachable — and would itself panic on `unwrap`). -/
theorem c3_traversal_errors_are_dropped :
    is_project_file (DirEntryResult.err "permission denied") = false
    ∧ check_subcommand c3_env c3_settings =
        some { printed := ["Searching \x27root\x27 for .vbp project files.",
                           "No errors found in 0 projects."],
               summary := [], checkerCalls := [] } := by
  refine ⟨rfl, ?_⟩
  decide

/- ### C4: the parallel fan-out preserves length and order -/

/-- Scheduling model of the data-parallel fan-out: the tasks of an index
family run in an arbitrary completion order, each writing its result into
its own pre-sized slot (index-correlated write-back, not
append-as-completed); a panicking task aborts the whole collection, as a
rayon panic does. -/
def parMapGo {n : Nat} {β : Type} (f : Fin n → Option β) :
    List (Fin n) → (Fin n → Option β) → Option (Fin n → Option β)
  | [], slots => some slots
  | i :: rest, slots =>
    match f i with
    | none => none
    | some b => parMapGo f rest (Function.update slots i (some b))

/-- Models `rayon`'s `collect_into_vec` (check.rs line 95) over the task
family `f`: run every task in completion order `order`, then read the
slots back in index order. -/
def collect_into_vec {n : Nat} {β : Type} (f : Fin n → Option β)
    (order : List (Fin n)) : Option (List β) :=
  match parMapGo f order (fun _ => none) with
  | none => none
  | some slots => mapMOpt (fun i => slots i) (List.finRange n)

/-- A default result record, used only to read back task results that are
known to exist. -/
def emptyCheckResults : CheckResults :=
  { project_path := "", parsing_errors := [], non_english_files := [], missing_files := [] }

/-- The per-entry checker as a total function, defined on entries whose
check does not panic. -/
def checkOneTotal (env : Env) (isWindows : Bool) (cs : CheckSettings)
    (e : DirEntryResult) : CheckResults :=
  (checkOne env isWindows cs e).getD emptyCheckResults

theorem mapMOpt_eq_map {α β : Type} (f : α → Option β) (d : β) :
    ∀ (l : List α), (∀ a ∈ l, (f a).isSome = true) →
      mapMOpt f l = some (l.map fun a => (f a).getD d)
  | [], _ => rfl
  | a :: l, h => by
    obtain ⟨b, hb⟩ := Option.isSome_iff_exists.mp (h a (by simp))
    have ih := mapMOpt_eq_map f d l (fun x hx => h x (by simp [hx]))
    simp [mapMOpt, hb, ih]

theorem mapMOpt_congr {α β : Type} (f g : α → Option β) :
    ∀ (l : List α), (∀ a ∈ l, f a = g a) → mapMOpt f l = mapMOpt g l
  | [], _ => rfl
  | a :: l, h => by
    have ih := mapMOpt_congr f g l (fun x hx => h x (by simp [hx]))
    simp only [mapMOpt, h a (by simp), ih]

theorem parMapGo_all_some {n : Nat} {β : Type} (f : Fin n → Option β)
    (hf : ∀ i, (f i).isSome = true) :
    ∀ (order : List (Fin n)) (slots : Fin n → Option β),
      parMapGo f order slots
        = some (order.foldl (fun s i => Function.update s i (f i)) slots)
  | [], slots => rfl
  | i :: rest, slots => by
    obtain ⟨b, hb⟩ := Option.isSome_iff_exists.mp (hf i)
    simp only [parMapGo, hb, List.foldl_cons]
    exact parMapGo_all_some f hf rest _

theorem foldl_update_lookup {n : Nat} {β : Type} (f : Fin n → Option β) :
    ∀ (order : List (Fin n)) (slots : Fin n → Option β) (j : Fin n),
      (order.foldl (fun s i => Function.update s i (f i)) slots) j
        = if j ∈ order then f j else slots j
  | [], slots, j => by simp
  | i :: rest, slots, j => by
    rw [List.foldl_cons, foldl_update_lookup f rest _ j]
    by_cases hj : j ∈ rest
    · simp [hj, List.mem_cons]
    · by_cases hij : j = i
      · subst hij
        simp [hj, Function.update_same]
      · simp [List.mem_cons, hj, hij, Function.update_noteq hij]

/-- C4: for every discovered entry sequence and every task completion
order (any permutation of the task indices), provided no task panics, the
index-correlated write-back collection equals the sequential in-order map
of the single-project checker over the entries — in particular it is
`some` of `entries.map`, which has the same length and order as the
discovery sequence with each element the checker applied to the
corresponding entry. -/
theorem c4_parallel_map_equals_sequential_map (env : Env) (iw : Bool) (cs : CheckSettings)
    (entries : List DirEntryResult) (order : List (Fin entries.length))
    (hperm : order.Perm (List.finRange entries.length))
    (hok : ∀ e ∈ entries, (checkOne env iw cs e).isSome = true) :
    collect_into_vec (fun i => checkOne env iw cs (entries.get i)) order
      = some (entries.map (checkOneTotal env iw cs))
    ∧ mapMOpt (checkOne env iw cs) entries
      = some (entries.map (checkOneTotal env iw cs)) := by
  have hmap : mapMOpt (checkOne env iw cs) entries
      = some (entries.map (checkOneTotal env iw cs)) := by
    rw [mapMOpt_eq_map (checkOne env iw cs) emptyCheckResults entries hok]
    rfl
  refine ⟨?_, hmap⟩
  have hf : ∀ i : Fin entries.length,
      ((fun i => checkOne env iw cs (entries.get i)) i).isSome = true :=
    fun i => hok _ (entries.get_mem i i.isLt)
  unfold collect_into_vec
  rw [parMapGo_all_some _ hf order (fun _ => none)]
  have hmem : ∀ j : Fin entries.length, j ∈ order :=
    fun j => hperm.mem_iff.mpr (List.mem_finRange j)
  have hslots : ∀ j ∈ List.finRange entries.length,
      (order.foldl (fun s i =>
          Function.update s i (checkOne env iw cs (entries.get i))) (fun _ => none)) j
        = checkOne env iw cs (entries.get j) := by
    intro j _
    rw [foldl_update_lookup]
    simp [hmem j]
  have hofn : (List.finRange entries.length).map
        (fun i => (checkOne env iw cs (entries.get i)).getD emptyCheckResults)
      = entries.map (checkOneTotal env iw cs) := by
    conv_rhs => rw [show entries = List.ofFn entries.get from (List.ofFn_get entries).symm]
    rw [List.map_ofFn, List.ofFn_eq_map]
    rfl
  have h1 : mapMOpt (fun j =>
        (order.foldl (fun s i => Function.update s i (checkOne env iw cs (entries.get i)))
          (fun _ => none)) j) (List.finRange entries.length)
      = mapMOpt (fun j => checkOne env iw cs (entries.get j)) (List.finRange entries.length) :=
    mapMOpt_congr _ _ _ hslots
  show mapMOpt (fun j =>
        (order.foldl (fun s i => Function.update s i (checkOne env iw cs (entries.get i)))
          (fun _ => none)) j) (List.finRange entries.length)
      = some (entries.map (checkOneTotal env iw cs))
  rw [h1, mapMOpt_eq_map _ emptyCheckResults _ (fun i _ => hf i), hofn]

/-- Settings for the C4 witness. -/
def c4_settings : CheckSettings :=
  { project_path := "root", check_forms := true, check_modules := true,
    check_classes := true, check_references := true }

/-- Environment for the C4 witness: descriptors read but fail to parse, so
every task completes with a one-error result. -/
def c4_env : Env :=
  { metadataOk := fun _ => true
  , readFile := fun _ => Except.ok []
  , parseProject := fun _ _ => Except.error "parse failure"
  , parseFile := fun _ _ _ => Except.ok () }

/-- Two discovered entries for the C4 witness. -/
def c4_entries : List DirEntryResult :=
  [DirEntryResult.ok "proj/a.vbp", DirEntryResult.ok "proj/b.vbp"]

/-- A completion order that finishes the second task first. -/
def c4_order : List (Fin c4_entries.length) := [⟨1, by decide⟩, ⟨0, by decide⟩]

/-- Witness for C4: with the reversed completion order the collection
still equals the sequential in-order map. -/
theorem c4_parallel_map_equals_sequential_map_witness :
    collect_into_vec (fun i => checkOne c4_env false c4_settings (c4_entries.get i)) c4_order
      = some (c4_entries.map (checkOneTotal c4_env false c4_settings)) :=
  (c4_parallel_map_equals_sequential_map c4_env false c4_settings c4_entries c4_order
    (by decide) (by decide)).1

end Aspen
